import Mathlib

/-!
Verification development for the `pcap-ng-parser` streaming packet-capture
decoder (`src/index.ts`, `src/utils.ts`, `src/blocks.ts`, `src/options.ts`).

The embedding models the completed input stream as a `List Nat` of bytes
(each `< 256` on real inputs; the model never depends on that bound).
The external `dataview-stream` byte buffer is modelled from the spec:
reading `n` bytes when fewer remain raises `Truncation{requested = n}`.
Out-of-scope pure helpers (IP pretty-printing via `@leichtgewicht/ip-codec`
and UTF-8 text decoding via `TextDecoder`) are kept as opaque constructors
of `StrVal`, carrying exactly the bytes the source passes them.
-/

namespace PcapNg

/-- `pad4` from `src/utils.ts`: `Math.ceil(n / 4) * 4 - n`. -/
def pad4 (n : Nat) : Nat :=
  ((n + 3) / 4) * 4 - n

/-- Hex digit used by `colons` (`Number.prototype.toString(16)` alphabet). -/
def hexDigit (n : Nat) : Char :=
  if n < 10 then Char.ofNat (48 + n) else Char.ofNat (87 + n)

/-- Two-digit lower-case hex of one byte (`toString(16).padStart(2, '0')`). -/
def byteHex (n : Nat) : String :=
  String.mk [hexDigit (n / 16 % 16), hexDigit (n % 16)]

/-- `colons` from `src/utils.ts`: colon-separated lower-case hex bytes. -/
def colons (buf : List Nat) : String :=
  String.intercalate ":" (buf.map byteHex)

/-- Big-endian accumulation of a byte list into a natural number. -/
def beNat (bs : List Nat) : Nat :=
  bs.foldl (fun a b => a * 256 + b) 0

/-- DataView-style unsigned decode of `bs` with endianness flag `le`. -/
def decodeUInt (le : Bool) (bs : List Nat) : Nat :=
  if le then beNat bs.reverse else beNat bs

/-- DataView-style signed 64-bit decode (two's complement). -/
def decodeI64 (le : Bool) (bs : List Nat) : Int :=
  let u := decodeUInt le bs
  if u < 2 ^ 63 then (u : Int) else (u : Int) - 2 ^ 64

/-- Errors raised while parsing.  Each constructor stands for one distinct
`Error` (or built-in exception) the source can throw; `recoverable e` is
`RecoverableError` from `src/index.ts` with `cause` preserved as `e`. -/
inductive PErr where
  /-- `TruncationError` of the byte buffer, carrying the requested size.
  Modelled from the spec: the `dataview-stream` package is external; per
  spec §4.1 a read of `n` bytes past end-of-input raises `Truncation{n}`. -/
  | truncation (requested : Nat)
  /-- `Invalid file format: magic = ...`. -/
  | invalidFormat (magic : Nat)
  /-- `Unable to determine endian from 0x...`. -/
  | badEndian (bom : Nat)
  /-- `Length mismatch, ${endTotalLength} != ${blockTotalLength}`. -/
  | lengthMismatch (endTotalLength blockTotalLength : Nat)
  /-- `No interface for simple packet`. -/
  | noInterfaceSimple
  /-- `Invalid interface id: ${interfaceId}` (interface statistics). -/
  | invalidInterfaceIdStats (interfaceId : Nat)
  /-- `Invalid interface ID: ${id} >= ${len}` (enhanced packet). -/
  | invalidInterfaceIdEPB (interfaceId len : Nat)
  /-- `Invalid ipv4mask option`. -/
  | invalidIpv4mask
  /-- `Invalid ipv6prefix option`. -/
  | invalidIpv6Pfx
  /-- `Invalid nrb_record_* record`, tagged with the record type. -/
  | invalidNrb (recordType : Nat)
  /-- Failure of an `assert(...)` from `@cto.af/utils`, or a JS `TypeError`
  from dereferencing `undefined`. -/
  | assertFail
  /-- A JS `RangeError` (BigInt division by zero or negative exponent). -/
  | rangeError
  /-- `Old PCAP format detected and rejected`. -/
  | rejectedOld
  /-- `PCAPng format detected and rejected`. -/
  | rejectedNG
  /-- `RecoverableError` wrapping, `cause` preserved. -/
  | recoverable (cause : PErr)
deriving DecidableEq, Repr

/-- A byte reader: remaining bytes plus the endianness flag.  Models both the
top-level `DataViewWritableStream` (over the whole delivered input) and the
bounded `DataViewReader` views created by `#dvr` over block bodies. -/
structure BReader where
  bytes : List Nat
  le : Bool
deriving DecidableEq, Repr

/-- Read `n` bytes, or raise `Truncation{n}` when fewer remain. -/
def rbytes (n : Nat) (r : BReader) : Except PErr (List Nat × BReader) :=
  if r.bytes.length < n then .error (.truncation n)
  else .ok (r.bytes.take n, ⟨r.bytes.drop n, r.le⟩)

/-- Peek `n` bytes without consuming them. -/
def rpeek (n : Nat) (r : BReader) : Except PErr (List Nat) :=
  if r.bytes.length < n then .error (.truncation n)
  else .ok (r.bytes.take n)

/-- `u8()`. -/
def ru8 (r : BReader) : Except PErr (Nat × BReader) := do
  let (bs, r') ← rbytes 1 r
  return (decodeUInt r.le bs, r')

/-- `u16()`. -/
def ru16 (r : BReader) : Except PErr (Nat × BReader) := do
  let (bs, r') ← rbytes 2 r
  return (decodeUInt r.le bs, r')

/-- `u32()`. -/
def ru32 (r : BReader) : Except PErr (Nat × BReader) := do
  let (bs, r') ← rbytes 4 r
  return (decodeUInt r.le bs, r')

/-- `u64()` (returned as a JS bigint, hence unbounded here). -/
def ru64 (r : BReader) : Except PErr (Nat × BReader) := do
  let (bs, r') ← rbytes 8 r
  return (decodeUInt r.le bs, r')

/-- `i64()` (signed 64-bit, used for `sectionLength`). -/
def ri64 (r : BReader) : Except PErr (Int × BReader) := do
  let (bs, r') ← rbytes 8 r
  return (decodeI64 r.le bs, r')

/-- `skip(n)` on a bounded reader. -/
def rskip (n : Nat) (r : BReader) : Except PErr BReader := do
  let (_, r') ← rbytes n r
  return r'

/-- String-valued results produced by the out-of-scope pretty printers
(`TextDecoder` and `@leichtgewicht/ip-codec`), kept opaque: each constructor
records exactly the bytes the source hands to the external helper.  `plain`
holds a string the source computes itself (via `colons`). -/
inductive StrVal where
  /-- `TD.decode(bs).replaceAll('\x00', '').trim()`. -/
  | utf8StripTrim (bs : List Nat)
  /-- `ipDecode(bs)`. -/
  | ip (bs : List Nat)
  /-- `` `${ipDecode(a)}/${ipDecode(m)}` `` (ipv4mask options). -/
  | ipSlashIp (a m : List Nat)
  /-- `` `${ipDecode(a)}/${p}` `` (ipv6prefix options). -/
  | ipSlashNat (a : List Nat) (p : Nat)
  /-- An ordinary string. -/
  | plain (s : String)
deriving DecidableEq, Repr

/-- The typed-value vocabulary of the option dictionary
(`OptionType` in `src/options.ts`; `undefined` is `Option.none` around it). -/
inductive OptTy where
  | str
  | ipv4
  | ipv6
  | ipv4mask
  | ipv6Pfx
  | eui
  | u32
  | u64
  | timestamp
deriving DecidableEq, Repr

/-- An option record as emitted by `#readOptions`
(`GenericOption & PrivateEnterpriseNumber` in `src/events.ts`).
`priv` is the source's `private` flag (a Lean keyword).
`date` is the instant in milliseconds carried by the `Date`. -/
structure POpt where
  optionType : Nat
  name : Option String := none
  pen : Option Nat := none
  priv : Bool := false
  str : Option StrVal := none
  bigint : Option Int := none
  date : Option Int := none
  data : Option (List Nat) := none
deriving DecidableEq, Repr

/-- `Interface` from `src/events.ts`.  `tsoffset` is milliseconds, `tsresol`
ticks per millisecond (both JS bigints). -/
structure Interface where
  linkType : Nat
  linkTypeName : Option String := none
  snapLen : Nat
  name : Option StrVal := none
  tsoffset : Int
  tsresol : Int
  options : List POpt
deriving DecidableEq, Repr

/-- `SectionHeader` event payload; `endianess` is the `'LE'`/`'BE'` string,
modelled as the underlying `littleEndian` flag. -/
structure SectionHeader where
  littleEndian : Bool
  majorVersion : Nat
  minorVersion : Nat
  sectionLength : Int
  options : List POpt
deriving DecidableEq, Repr

/-- `PacketFlags` decoded from the 4-byte `epb_flags` option value. -/
structure PacketFlags where
  direction : String
  reception : String
  FCSlen : Nat
  noChecksum : Bool
  checksumValid : Bool
  TCPsegmentationOffload : Bool
  linkLayerErrors : List String
deriving DecidableEq, Repr

/-- `Packet` event payload; `timestamp` is the `Date` instant in ms. -/
structure Packet where
  interfaceId : Nat
  timestamp : Option Int := none
  flags : Option PacketFlags := none
  originalPacketLength : Nat
  data : List Nat
  options : List POpt
deriving DecidableEq, Repr

/-- One name-resolution record.  `addr` is the pretty-printed address
(opaque for ipv4/ipv6, `colons` output for eui).  `entries` holds the
NUL-split name tokens as byte lists; UTF-8 decoding of each token is the
out-of-scope text decoder and commutes with the NUL split. -/
structure NRRec where
  name : String
  addr : StrVal
  entries : List (List Nat)
deriving DecidableEq, Repr

/-- `NameResolution` event payload. -/
structure NameResolution where
  records : List NRRec
  options : List POpt
deriving DecidableEq, Repr

/-- `InterfaceStatistics` event payload. -/
structure InterfaceStatistics where
  interfaceId : Nat
  timestamp : Int
  options : List POpt
deriving DecidableEq, Repr

/-- `DecryptionSecrets` event payload. -/
structure DecryptionSecrets where
  secretsType : Nat
  data : List Nat
  options : List POpt
deriving DecidableEq, Repr

/-- `CustomBlock` event payload. -/
structure CustomBlock where
  pen : Nat
  data : List Nat
  copy : Bool
deriving DecidableEq, Repr

/-- The event surface of the parser (`ParseEvents` in `src/index.ts`),
in dispatch order. -/
inductive PEvent where
  | section (s : SectionHeader)
  | iface (i : Interface)
  | data (p : Packet)
  | names (n : NameResolution)
  | stats (s : InterfaceStatistics)
  | secrets (d : DecryptionSecrets)
  | custom (c : CustomBlock)
  | unknown (blockType : Nat)
  | error (e : PErr)
  | close
deriving DecidableEq, Repr

/-- Block type constants from `src/options.ts`. -/
def SECTION_HEADER : Nat := 0x0A0D0D0A

def INTERFACE_DESCRIPTION : Nat := 0x1

def SIMPLE_PACKET : Nat := 0x3

def NAME_RESOLUTION : Nat := 0x4

def INTERFACE_STATISTICS : Nat := 0x5

def ENHANCED_PACKET : Nat := 0x6

def DECRYPTION_SECRETS : Nat := 0xA

def CUSTOM_COPY : Nat := 0x00000BAD

def CUSTOM_NOCOPY : Nat := 0x40000BAD

/-- The four custom option codes carrying a Private Enterprise Number,
shared by every block type's dictionary in `src/options.ts`. -/
def customOptionDesc (optionType : Nat) : Option (String × Option OptTy × Bool) :=
  if optionType = 2988 then some ("opt_custom", some .str, true)
  else if optionType = 2989 then some ("opt_custom", none, true)
  else if optionType = 19372 then some ("opt_custom", some .str, true)
  else if optionType = 19373 then some ("opt_custom", none, true)
  else none

/-- `OPTION_NAMES` from `src/options.ts`: the per-block-type option
dictionary, `(name, valueType, hasPEN)` with `hasPEN` defaulting false. -/
def optionDesc (blockType optionType : Nat) : Option (String × Option OptTy × Bool) :=
  if blockType = SECTION_HEADER then
    if optionType = 1 then some ("opt_comment", some .str, false)
    else if optionType = 2 then some ("shb_hardware", some .str, false)
    else if optionType = 3 then some ("shb_os", some .str, false)
    else if optionType = 4 then some ("shb_userappl", some .str, false)
    else customOptionDesc optionType
  else if blockType = INTERFACE_DESCRIPTION then
    if optionType = 1 then some ("opt_comment", some .str, false)
    else if optionType = 2 then some ("if_name", some .str, false)
    else if optionType = 3 then some ("if_description", some .str, false)
    else if optionType = 4 then some ("if_IPv4addr", some .ipv4mask, false)
    else if optionType = 5 then some ("if_IPv6addr", some .ipv6Pfx, false)
    else if optionType = 6 then some ("if_MACaddr", some .eui, false)
    else if optionType = 7 then some ("if_EUIaddr", some .eui, false)
    else if optionType = 8 then some ("if_speed", none, false)
    else if optionType = 9 then some ("if_tsresol", none, false)
    else if optionType = 10 then some ("if_tzone", none, false)
    else if optionType = 11 then some ("if_filter", none, false)
    else if optionType = 12 then some ("if_os", some .str, false)
    else if optionType = 13 then some ("if_fcslen", none, false)
    else if optionType = 14 then some ("if_tsoffset", some .u64, false)
    else if optionType = 15 then some ("if_hardware", some .str, false)
    else if optionType = 16 then some ("if_txspeed", some .u64, false)
    else if optionType = 17 then some ("if_rxspeed", some .u64, false)
    else if optionType = 18 then some ("if_iana_tzname", some .str, false)
    else customOptionDesc optionType
  else if blockType = NAME_RESOLUTION then
    if optionType = 1 then some ("opt_comment", some .str, false)
    else if optionType = 2 then some ("ns_dnsname", some .str, false)
    else if optionType = 3 then some ("ns_dnsIP4addr", some .ipv4, false)
    else if optionType = 4 then some ("ns_dnsIP6addr", some .ipv6, false)
    else customOptionDesc optionType
  else if blockType = INTERFACE_STATISTICS then
    if optionType = 1 then some ("opt_comment", some .str, false)
    else if optionType = 2 then some ("isb_starttime", some .timestamp, false)
    else if optionType = 3 then some ("isb_endtime", some .timestamp, false)
    else if optionType = 4 then some ("isb_ifrecv", some .u64, false)
    else if optionType = 5 then some ("isb_ifdrop", some .u64, false)
    else if optionType = 6 then some ("isb_filteraccept", some .u64, false)
    else if optionType = 7 then some ("isb_osdrop", some .u64, false)
    else if optionType = 8 then some ("isb_usrdeliv", some .u64, false)
    else customOptionDesc optionType
  else if blockType = ENHANCED_PACKET then
    if optionType = 1 then some ("opt_comment", some .str, false)
    else if optionType = 2 then some ("epb_flags", none, false)
    else if optionType = 3 then some ("epb_hash", none, false)
    else if optionType = 4 then some ("epb_dropcount", some .u64, false)
    else if optionType = 5 then some ("epb_packetid", some .u64, false)
    else if optionType = 6 then some ("epb_queue", some .u32, false)
    else if optionType = 7 then some ("epb_verdict", none, false)
    else if optionType = 8 then some ("epb_processid_threadid", none, false)
    else customOptionDesc optionType
  else if blockType = DECRYPTION_SECRETS then
    if optionType = 1 then some ("opt_comment", some .str, false)
    else customOptionDesc optionType
  else none

/-- `EPB_FLAGS_DIRECTIONS` from `src/events.ts`. -/
def EPB_FLAGS_DIRECTIONS : List String :=
  ["notAvailable", "inbound", "outbound", "invalid"]

/-- `EPB_FLAGS_RECEPTION` from `src/events.ts`. -/
def EPB_FLAGS_RECEPTION : List String :=
  ["notSpecified", "unicast", "multicast", "broadcast", "promiscuous",
   "invalid", "invalid", "invalid"]

/-- `EPB_FLAGS_LINK_LAYER_ERRORS` from `src/events.ts`. -/
def EPB_FLAGS_LINK_LAYER_ERRORS : List String :=
  ["symbol", "preamble", "startFrameDelimiter", "unalignedFrame",
   "wrongInterFrameGap", "packetTooShort", "packetTooLong", "CRC",
   "invalid", "invalid", "invalid", "invalid",
   "invalid", "invalid", "invalid", "invalid"]

/-- A framed block (`Block` in `src/index.ts`): `data` is the bounded
`DataViewReader` over the body bytes. -/
structure Block where
  blockType : Nat
  blockTotalLength : Nat
  data : BReader
deriving DecidableEq, Repr

/-- `#timestamp` from `src/index.ts`: `stamp = (BigInt(high) << 32n) |
BigInt(low)`, then `tsoffset + stamp / tsresol` in exact bigint arithmetic
(JS bigint `/` truncates toward zero, hence `Int.tdiv`; division by a zero
`tsresol` throws a `RangeError`).  A missing interface fails the
`assert(int, ...)`.  The result is the `Date` instant in milliseconds. -/
def timestamp (ints : List Interface) (stampHigh stampLow interfaceId : Nat) :
    Except PErr Int :=
  let stamp : Nat := (stampHigh <<< 32) ||| stampLow
  match ints.get? interfaceId with
  | none => .error .assertFail
  | some int =>
    if int.tsresol = 0 then .error .rangeError
    else .ok (int.tsoffset + Int.tdiv (stamp : Int) int.tsresol)

/-- `#timestamp` as called from the option decoder, where `interfaceId` may
be absent (`interfaceId as number` on `undefined` indexes `interfaces` at
`undefined`, so the `assert` fails). -/
def timestampOpt (ints : List Interface) (stampHigh stampLow : Nat)
    (interfaceId : Option Nat) : Except PErr Int :=
  match interfaceId with
  | none => .error .assertFail
  | some i => timestamp ints stampHigh stampLow i

/-- The body of one iteration of the `#readOptions` loop after the
`(optionType, dataLength)` header has been read and found nonzero: dictionary
lookup, PEN extraction, typed value decode, then the `pad4(dataLength)` skip.
JS computes `optLen - 4` as a possibly negative Number for PEN options with
`dataLength < 4`; modelled with truncated `Nat` subtraction (no claim
exercises that corner). -/
def readOptionValue (ints : List Interface) (interfaceId : Option Nat)
    (blockType optionType dataLength : Nat) (r : BReader) :
    Except PErr (POpt × BReader) := do
  let desc := optionDesc blockType optionType
  let (name, typ, pen, optLen, r) ←
    match desc with
    | none =>
      pure ((none : Option String), (none : Option OptTy), (none : Option Nat),
        dataLength, r)
    | some (nm, ty, hasPen) =>
      if hasPen then do
        let (p, r') ← ru32 r
        pure (some nm, ty, some p, dataLength - 4, r')
      else
        pure (some nm, ty, (none : Option Nat), dataLength, r)
  let base : POpt :=
    { optionType, name, pen, priv := optionType &&& 0x8000 ≠ 0 }
  let (opt, r) ←
    match typ with
    | some .str => do
      let (left, r) ← rbytes optLen r
      pure ({ base with str := some (.utf8StripTrim left) }, r)
    | some .ipv4 => do
      let (bs, r) ← rbytes dataLength r
      pure ({ base with str := some (.ip bs) }, r)
    | some .ipv6 => do
      let (bs, r) ← rbytes dataLength r
      pure ({ base with str := some (.ip bs) }, r)
    | some .ipv4mask =>
      if dataLength ≠ 8 then Except.error .invalidIpv4mask
      else do
        let (a, r) ← rbytes 4 r
        let (m, r) ← rbytes 4 r
        pure ({ base with str := some (.ipSlashIp a m) }, r)
    | some .ipv6Pfx =>
      if dataLength ≠ 17 then Except.error .invalidIpv6Pfx
      else do
        let (a, r) ← rbytes 16 r
        let (p, r) ← ru8 r
        pure ({ base with str := some (.ipSlashNat a p) }, r)
    | some .eui => do
      let (bs, r) ← rbytes dataLength r
      pure ({ base with str := some (.plain (colons bs)) }, r)
    | some .u32 => do
      let (v, r) ← ru32 r
      pure ({ base with bigint := some (v : Int) }, r)
    | some .u64 => do
      let (v, r) ← ru64 r
      pure ({ base with bigint := some (v : Int) }, r)
    | some .timestamp => do
      let (h, r) ← ru32 r
      let (l, r) ← ru32 r
      let d ← timestampOpt ints h l interfaceId
      pure ({ base with date := some d }, r)
    | none => do
      let (bs, r) ← rbytes dataLength r
      pure ({ base with data := some bs }, r)
  let r ← rskip (pad4 dataLength) r
  return (opt, r)

/-- The `#readOptions` loop.  Each iteration consumes at least the 4-byte
option header before recursing, so `fuel = r.bytes.length + 1` (as supplied
by `readOptions`) can never be exhausted; the fuel-0 branch is a dead
artifact of the encoding. -/
def readOptionsLoop (ints : List Interface) (blockType : Nat)
    (interfaceId : Option Nat) :
    Nat → BReader → Except PErr (List POpt × BReader)
  | 0, r => .ok ([], r)
  | fuel + 1, r =>
    if r.bytes.isEmpty then .ok ([], r)
    else do
      let (optionType, r) ← ru16 r
      let (dataLength, r) ← ru16 r
      if optionType = 0 then .ok ([], r)
      else do
        let (opt, r) ← readOptionValue ints interfaceId blockType
          optionType dataLength r
        let (rest, r) ← readOptionsLoop ints blockType interfaceId fuel r
        .ok (opt :: rest, r)

/-- `#readOptions` from `src/index.ts`, continuing from reader position `r`
inside the block body. -/
def readOptions (ints : List Interface) (blockType : Nat) (r : BReader)
    (interfaceId : Option Nat) : Except PErr (List POpt × BReader) :=
  readOptionsLoop ints blockType interfaceId (r.bytes.length + 1) r

/-- Each block processor maps the framed block and the current interface
table to the events it dispatches and the updated interface table.  A thrown
error leaves the table untouched, exactly as in the source, where every
processor mutates `this.interfaces` only after all fallible reads. -/
abbrev ProcResult := Except PErr (List PEvent × List Interface)

/-- `#processSectionHeader`: decode the header and options, then reset the
interface table and emit `section`.  The emitted payload carries the
`byteOrderMagic` hidden by the TS type but present at runtime through the
spread; it is dropped here as it is unobservable through `SectionHeader`. -/
def processSectionHeader (b : Block) (ints : List Interface) : ProcResult := do
  let r := b.data
  let (_byteOrderMagic, r) ← ru32 r
  let (majorVersion, r) ← ru16 r
  let (minorVersion, r) ← ru16 r
  let (sectionLength, r) ← ri64 r
  let (options, _) ← readOptions ints b.blockType r none
  let detail : SectionHeader :=
    { littleEndian := b.data.le, majorVersion, minorVersion, sectionLength,
      options }
  return ([.section detail], [])

/-- The per-option `switch` inside `#processInterface`'s option loop:
option 2 copies `if_name`, option 14 scales `if_tsoffset` by 1000, and
option 9 decodes `if_tsresol` (binary power over 1000 when the MSB is set,
otherwise `10^(b-3)`; JS throws a `RangeError` on a negative bigint
exponent and a `TypeError` when the raw byte is missing). -/
def applyInterfaceOption (i : Interface) (opt : POpt) : Except PErr Interface :=
  if opt.optionType = 2 then .ok { i with name := opt.str }
  else if opt.optionType = 14 then
    match opt.bigint with
    | some v => .ok { i with tsoffset := v * 1000 }
    | none => .error .assertFail
  else if opt.optionType = 9 then
    match opt.data with
    | some (b0 :: _) =>
      if b0 &&& 0x80 ≠ 0 then
        .ok { i with tsresol := Int.tdiv (2 ^ (b0 &&& 0x7F) : Int) 1000 }
      else if 3 ≤ b0 then .ok { i with tsresol := ((10 ^ (b0 - 3) : Nat) : Int) }
      else .error .rangeError
    | _ => .error .assertFail
  else .ok i

/-- `#processInterface`: decode the fixed header and options, fold the
interpreted options into the interface record, append it to the table and
emit `interface`. -/
def processInterface (b : Block) (ints : List Interface) : ProcResult := do
  let r := b.data
  let (linkType, r) ← ru16 r
  let (_reserved, r) ← ru16 r
  let (snapLen, r) ← ru32 r
  let (options, _) ← readOptions ints b.blockType r none
  let base : Interface :=
    { linkType, snapLen, tsoffset := 0, tsresol := 1000, options }
  let iData ← options.foldlM applyInterfaceOption base
  return ([.iface iData], ints ++ [iData])

/-- `#processSimplePacket`: requires a first interface, reads the original
packet length, consumes `min(originalPacketLength, snapLen)` bytes and
emits `data` on interface 0 with no options. -/
def processSimplePacket (b : Block) (ints : List Interface) : ProcResult :=
  match ints with
  | [] => .error .noInterfaceSimple
  | int :: _ => do
    let (originalPacketLength, r) ← ru32 b.data
    let len := Nat.min originalPacketLength int.snapLen
    let (data, _) ← rbytes len r
    let pkt : Packet :=
      { interfaceId := 0, originalPacketLength := originalPacketLength,
        data := data, options := [] }
    return ([.data pkt], ints)

/-- JS `String.prototype.split('\x00')` on the byte level: NUL-separated
tokens, keeping empty tokens (so a trailing NUL yields a final empty token
and an empty input yields one empty token).  UTF-8 decoding commutes with
this split because the NUL byte encodes exactly the NUL character. -/
def splitNul : List Nat → List (List Nat)
  | [] => [[]]
  | b :: rest =>
    if b = 0 then [] :: splitNul rest
    else
      match splitNul rest with
      | [] => [[b]]
      | t :: ts => (b :: t) :: ts

/-- The record loop of `#processNameResolution`.  Each iteration consumes at
least the 4-byte record header before recursing, so the caller's
`fuel = bytes.length + 1` can never be exhausted. -/
def nrLoop : Nat → BReader → Except PErr (List NRRec × BReader)
  | 0, r => .ok ([], r)
  | fuel + 1, r => do
    let (recordType, r) ← ru16 r
    let (recordValueLength, r) ← ru16 r
    if recordType = 0 then .ok ([], r)
    else do
      let (val, r) ← rbytes recordValueLength r
      let r ← rskip (pad4 recordValueLength) r
      let rec? : Option NRRec ←
        if recordType = 1 then
          if recordValueLength < 6 then Except.error (.invalidNrb 1)
          else pure (some ⟨"nrb_record_ipv4", .ip (val.take 4),
            (splitNul (val.drop 4)).dropLast⟩)
        else if recordType = 2 then
          if recordValueLength < 18 then Except.error (.invalidNrb 2)
          else pure (some ⟨"nrb_record_ipv6", .ip (val.take 16),
            (splitNul (val.drop 16)).dropLast⟩)
        else if recordType = 3 then
          if recordValueLength < 8 then Except.error (.invalidNrb 3)
          else pure (some ⟨"nrb_record_eui48", .plain (colons (val.take 6)),
            (splitNul (val.drop 6)).dropLast⟩)
        else if recordType = 4 then
          if recordValueLength < 10 then Except.error (.invalidNrb 4)
          else pure (some ⟨"nrb_record_eui64", .plain (colons (val.take 8)),
            (splitNul (val.drop 8)).dropLast⟩)
        else pure none
      let (rest, r) ← nrLoop fuel r
      .ok (rec?.toList ++ rest, r)

/-- `#processNameResolution`: the record loop, then trailing options, then
one `names` event. -/
def processNameResolution (b : Block) (ints : List Interface) : ProcResult := do
  let (records, r) ← nrLoop (b.data.bytes.length + 1) b.data
  let (options, _) ← readOptions ints b.blockType r none
  return ([.names ⟨records, options⟩], ints)

/-- `#processInterfaceStatistics`: header, interface-id bound check, the
timestamp, options (decoded with the interface id in scope), one `stats`
event. -/
def processInterfaceStatistics (b : Block) (ints : List Interface) :
    ProcResult := do
  let r := b.data
  let (interfaceId, r) ← ru32 r
  let (timestampHigh, r) ← ru32 r
  let (timestampLow, r) ← ru32 r
  if ints.length ≤ interfaceId then .error (.invalidInterfaceIdStats interfaceId)
  else do
    let ts ← timestamp ints timestampHigh timestampLow interfaceId
    let (options, _) ← readOptions ints b.blockType r (some interfaceId)
    return ([.stats ⟨interfaceId, ts, options⟩], ints)

/-- Decode the 4-byte `epb_flags` value (`#processEnhancedPacket`'s option
loop body).  The JS right-shifts go through `ToInt32`, but every inspected
bit lies below bit 24, where arithmetic and logical shifts agree, so `Nat`
shifts are faithful. -/
def decodeFlags (le : Bool) (bs : List Nat) : Except PErr PacketFlags := do
  let (f, _) ← ru32 ⟨bs, le⟩
  return {
    direction := EPB_FLAGS_DIRECTIONS.getD (f &&& 0x3) "",
    reception := EPB_FLAGS_RECEPTION.getD ((f >>> 2) &&& 0x7) "",
    FCSlen := (f >>> 5) &&& 0xF,
    noChecksum := (f >>> 9) &&& 0x1 ≠ 0,
    checksumValid := (f >>> 10) &&& 0x1 ≠ 0,
    TCPsegmentationOffload := (f >>> 11) &&& 0x1 ≠ 0,
    linkLayerErrors := (List.range 8).filterMap fun i =>
      if (f >>> (16 + i)) &&& 1 ≠ 0 then
        some (EPB_FLAGS_LINK_LAYER_ERRORS.getD i "")
      else none }

/-- The `for (const o of pkt.options)` loop of `#processEnhancedPacket`:
every option of type 2 overwrites `pkt.flags` (a missing `data` fails the
`assert(o.data)`). -/
def applyFlagsOptions (le : Bool) (opts : List POpt)
    (flags : Option PacketFlags) : Except PErr (Option PacketFlags) :=
  match opts with
  | [] => .ok flags
  | o :: rest =>
    if o.optionType = 2 then
      match o.data with
      | none => .error .assertFail
      | some bs => do
        let fl ← decodeFlags le bs
        applyFlagsOptions le rest (some fl)
    else applyFlagsOptions le rest flags

/-- `#processEnhancedPacket`: header, interface-id bound check, packet
bytes, padding, options, flags decode, one `data` event. -/
def processEnhancedPacket (b : Block) (ints : List Interface) : ProcResult := do
  let r := b.data
  let (interfaceId, r) ← ru32 r
  let (timestampHigh, r) ← ru32 r
  let (timestampLow, r) ← ru32 r
  let (capturedPacketLength, r) ← ru32 r
  let (originalPacketLength, r) ← ru32 r
  if ints.length ≤ interfaceId then
    .error (.invalidInterfaceIdEPB interfaceId ints.length)
  else do
    let (data, r) ← rbytes capturedPacketLength r
    let ts ← timestamp ints timestampHigh timestampLow interfaceId
    let r ← rskip (pad4 capturedPacketLength) r
    let (options, _) ← readOptions ints b.blockType r (some interfaceId)
    let flags ← applyFlagsOptions b.data.le options none
    let pkt : Packet :=
      { interfaceId := interfaceId, timestamp := some ts, flags := flags,
        originalPacketLength := originalPacketLength, data := data,
        options := options }
    return ([.data pkt], ints)

/-- `#processDecryptionSecrets`: type and length, secret bytes, padding,
options, one `secrets` event. -/
def processDecryptionSecrets (b : Block) (ints : List Interface) :
    ProcResult := do
  let r := b.data
  let (secretsType, r) ← ru32 r
  let (secretsLength, r) ← ru32 r
  let (data, r) ← rbytes secretsLength r
  let r ← rskip (pad4 secretsLength) r
  let (options, _) ← readOptions ints b.blockType r none
  return ([.secrets ⟨secretsType, data, options⟩], ints)

/-- `#processCustom`: a PEN then the unused remainder of the body; `copy`
distinguishes the two custom block types. -/
def processCustom (b : Block) (ints : List Interface) : ProcResult := do
  let (pen, r) ← ru32 b.data
  return ([.custom ⟨pen, r.bytes, b.blockType = CUSTOM_COPY⟩], ints)

/-- `#readBlock` from `src/index.ts`.  `Ok none` is the clean-termination
path: the catch around the block-type read asserts `TruncationError` with
`requested === 4` and returns `undefined`; in the model that truncation is
exactly "fewer than 4 bytes remain".  A Section Header sentinel peeks the
byte-order magic and may flip the endianness before any further read.  JS
computes `blockTotalLength - 12` as a possibly negative Number; modelled
with truncated `Nat` subtraction (no claim exercises lengths below 12). -/
def readBlock (s : BReader) : Except PErr (Option (Block × BReader)) :=
  if s.bytes.length < 4 then .ok none
  else do
    let (blockType, s) ← ru32 s
    let s ←
      if blockType = SECTION_HEADER then do
        let firstEight ← rpeek 8 s
        let bom := decodeUInt s.le ((firstEight.drop 4).take 4)
        if bom = 0x1A2B3C4D then pure s
        else if bom = 0x4D3C2B1A then pure { s with le := !s.le }
        else Except.error (.badEndian bom)
      else pure s
    let (blockTotalLength, s) ← ru32 s
    let dataLen := blockTotalLength - 12
    let (body, s) ← rbytes dataLen s
    let s ← rskip (pad4 dataLen) s
    let (endTotalLength, s) ← ru32 s
    if endTotalLength ≠ blockTotalLength then
      .error (.lengthMismatch endTotalLength blockTotalLength)
    else
      let b : Block :=
        { blockType := blockType, blockTotalLength := blockTotalLength,
          data := ⟨body, s.le⟩ }
      .ok (some (b, s))

/-- The `switch (block.blockType)` dispatch inside `#readSections`.  The
default branch emits `unknown` with the block type exactly as read — an
unsigned 32-bit value, so no block type is ever negative or skipped. -/
def processBlock (b : Block) (ints : List Interface) : ProcResult :=
  if b.blockType = SECTION_HEADER then processSectionHeader b ints
  else if b.blockType = INTERFACE_DESCRIPTION then processInterface b ints
  else if b.blockType = SIMPLE_PACKET then processSimplePacket b ints
  else if b.blockType = NAME_RESOLUTION then processNameResolution b ints
  else if b.blockType = INTERFACE_STATISTICS then
    processInterfaceStatistics b ints
  else if b.blockType = ENHANCED_PACKET then processEnhancedPacket b ints
  else if b.blockType = DECRYPTION_SECRETS then processDecryptionSecrets b ints
  else if b.blockType = CUSTOM_COPY ∨ b.blockType = CUSTOM_NOCOPY then
    processCustom b ints
  else .ok ([.unknown b.blockType], ints)

/-- The `while (true)` loop of `#readSections`: frame a block (a framer
error is fatal and ends the loop), run its processor in an isolated fault
domain (a processor error is wrapped once in `RecoverableError` with the
cause preserved, dispatched as an `error` event, and the loop continues
with the next block and the unchanged interface table).  Returns the events
dispatched and the fatal error, if any.  Each successfully framed block
consumes at least 12 bytes, so the caller's `fuel = bytes.length + 1` can
never be exhausted. -/
def sectionLoop : Nat → BReader → List Interface → List PEvent × Option PErr
  | 0, _, _ => ([], none)
  | fuel + 1, s, ints =>
    match readBlock s with
    | .error e => ([], some e)
    | .ok none => ([], none)
    | .ok (some (b, s')) =>
      match processBlock b ints with
      | .error e =>
        let (evs, f) := sectionLoop fuel s' ints
        (PEvent.error (.recoverable e) :: evs, f)
      | .ok (evs₁, ints') =>
        let (evs, f) := sectionLoop fuel s' ints'
        (evs₁ ++ evs, f)

/-- `#readSections`: the `rejectNG` gate, then the section loop. -/
def readSections (rejectNG : Bool) (s : BReader) (ints : List Interface) :
    List PEvent × Option PErr :=
  if rejectNG then ([], some .rejectedNG)
  else sectionLoop (s.bytes.length + 1) s ints

/-- JS `ToInt32` of an unsigned 32-bit value. -/
def asInt32 (n : Nat) : Int :=
  if n < 2 ^ 31 then (n : Int) else (n : Int) - 2 ^ 32

/-- Modelled from the spec: `LINK_TYPE_NAMES` (`src/linkTypes.ts`) is the
external static link-type name table, out of scope per spec §1; no claim
depends on any entry, so the model resolves every link type to `none`. -/
def LINK_TYPE_NAMES (_linkType : Nat) : Option String := none

/-- The packet loop of `#readPCAP`.  A `Truncation{4}` from `waitFor(4)` at
a record boundary is the clean end of the stream; any later truncation is
fatal.  The `Date` value `timestampHigh * 1000 + timestampLow / tsresol` is
computed by JS in binary floating point and truncated by `Date`; modelled
with `Nat` division (no claim exercises legacy timestamps).  Each iteration
consumes at least 16 bytes, so `fuel = bytes.length + 1` never runs out. -/
def pcapLoop (tsresol : Nat) : Nat → BReader → List PEvent × Option PErr
  | 0, _ => ([], none)
  | fuel + 1, s =>
    if s.bytes.length < 4 then ([], none)
    else
      match (do
        let (timestampHigh, s) ← ru32 s
        let (timestampLow, s) ← ru32 s
        let (capturedPacketLength, s) ← ru32 s
        let (originalPacketLength, s) ← ru32 s
        let (data, s) ← rbytes capturedPacketLength s
        Except.ok (timestampHigh, timestampLow, originalPacketLength, data, s) :
          Except PErr _) with
      | .error e => ([], some e)
      | .ok (timestampHigh, timestampLow, originalPacketLength, data, s) =>
        let pkt : Packet :=
          { interfaceId := 0,
            timestamp := some ((timestampHigh * 1000 + timestampLow / tsresol :
              Nat) : Int),
            originalPacketLength := originalPacketLength, data := data,
            options := [] }
        let (evs, f) := pcapLoop tsresol fuel s
        (PEvent.data pkt :: evs, f)

/-- `#readPCAP` from `src/index.ts`: the `rejectOld` gate, the optional
endianness flip, the 24-byte header (including the already-peeked magic),
the synthetic interface with its optional `if_fcslen` option (JS computes
`linkType >> 28` through `ToInt32`, i.e. an arithmetic shift, and squeezes
`FCSlen * 16` into a `Uint8Array` byte), then the packet loop. -/
def readPCAP (rejectOld : Bool) (flip nano : Bool) (s : BReader) :
    List PEvent × Option PErr :=
  if rejectOld then ([], some .rejectedOld)
  else
    let s := if flip then { s with le := !s.le } else s
    match (do
      let (_byteOrderMagic, s) ← ru32 s
      let (_majorVersion, s) ← ru16 s
      let (_minorVersion, s) ← ru16 s
      let (_reserved1, s) ← ru32 s
      let (_reserved2, s) ← ru32 s
      let (snapLen, s) ← ru32 s
      let (linkType, s) ← ru32 s
      Except.ok (snapLen, linkType, s) : Except PErr _) with
    | .error e => ([], some e)
    | .ok (snapLen, linkType, s) =>
      let tsresol : Nat := if nano then 1000000 else 1000
      let lt := linkType &&& 0xffff
      let fcsOptions : List POpt :=
        if linkType &&& 0x04000000 ≠ 0 then
          [{ optionType := 13, name := some "if_fcslen",
             data := some [((((asInt32 linkType).fdiv (2 ^ 28)) * 16).emod
               256).toNat] }]
        else []
      let int : Interface :=
        { linkType := lt, linkTypeName := LINK_TYPE_NAMES lt,
          snapLen := snapLen, tsoffset := 0, tsresol := (tsresol : Int),
          options := fcsOptions }
      let (evs, f) := pcapLoop tsresol (s.bytes.length + 1) s
      (PEvent.iface int :: evs, f)

/-- Magic numbers for the legacy PCAP format (`src/index.ts`). -/
def PCAP_MAGIC_MICRO : Nat := 0xA1B2C3D4

def PCAP_MAGIC_NANO : Nat := 0xA1B23C4D

def PCAP_MAGIC_MICRO_LE : Nat := 0xD4C3B2A1

def PCAP_MAGIC_NANO_LE : Nat := 0x4D3CB2A1

/-- `ParserOptions` from `src/index.ts` with its defaults. -/
structure ParserOptions where
  rejectOld : Bool := false
  rejectNG : Bool := false
deriving DecidableEq, Repr

/-- The tail of `#readFile`: a fatal error is caught and dispatched as an
`error` event, and `close` is always dispatched afterwards. -/
def finishEvents : List PEvent × Option PErr → List PEvent
  | (evs, some e) => evs ++ [.error e, .close]
  | (evs, none) => evs ++ [.close]

/-- `#readFile` from `src/index.ts` applied to the completed input: peek 8
bytes (failing with `Truncation{8}` on shorter inputs), decode the magic
big-endian, dispatch on it, catch any fatal error as an `error` event, and
always dispatch `close` last. -/
def readFile (opts : ParserOptions) (input : List Nat) : List PEvent :=
  let s : BReader := ⟨input, false⟩
  if input.length < 8 then finishEvents ([], some (.truncation 8))
  else
    let magic := decodeUInt false (input.take 4)
    if magic = SECTION_HEADER then finishEvents (readSections opts.rejectNG s [])
    else if magic = PCAP_MAGIC_MICRO then
      finishEvents (readPCAP opts.rejectOld false false s)
    else if magic = PCAP_MAGIC_MICRO_LE then
      finishEvents (readPCAP opts.rejectOld true false s)
    else if magic = PCAP_MAGIC_NANO then
      finishEvents (readPCAP opts.rejectOld false true s)
    else if magic = PCAP_MAGIC_NANO_LE then
      finishEvents (readPCAP opts.rejectOld true true s)
    else finishEvents ([], some (.invalidFormat magic))

/-! ### Concrete inputs used by witnesses and counterexamples -/

/-- Big-endian 32-bit word as four bytes. -/
def w32 (n : Nat) : List Nat :=
  [(n >>> 24) &&& 255, (n >>> 16) &&& 255, (n >>> 8) &&& 255, n &&& 255]

/-- Big-endian 16-bit word as two bytes. -/
def w16 (n : Nat) : List Nat :=
  [(n >>> 8) &&& 255, n &&& 255]

/-- A minimal big-endian Section Header block (spec scenario S1). -/
def shbBytes : List Nat :=
  w32 0x0A0D0D0A ++ w32 0x1C ++ w32 0x1A2B3C4D ++ w16 1 ++ w16 0 ++
    List.replicate 8 0xFF ++ w32 0x1C

/-- The section payload S1 produces. -/
def shb0 : SectionHeader :=
  { littleEndian := false, majorVersion := 1, minorVersion := 0,
    sectionLength := -1, options := [] }

/-- A big-endian Interface Description block with `snapLen = 4`. -/
def idb4Bytes : List Nat :=
  w32 0x1 ++ w32 0x14 ++ w16 1 ++ w16 0 ++ w32 4 ++ w32 0x14

/-- A big-endian Simple Packet block: `originalPacketLength = 6`, six data
bytes and two alignment zeros inside the body. -/
def spbBytes : List Nat :=
  w32 0x3 ++ w32 0x18 ++ w32 6 ++ [1, 2, 3, 4, 5, 6, 0, 0] ++ w32 0x18

/-- A malformed big-endian Section Header block: `blockTotalLength = 16`, so
the body holds only the byte-order magic and the header decode dies with a
truncation while reading `majorVersion`. -/
def shbShortBytes : List Nat :=
  w32 0x0A0D0D0A ++ w32 16 ++ w32 0x1A2B3C4D ++ w32 16

/-- The stream for the C7 counterexample: a section with one interface of
`snapLen = 4`, then the malformed Section Header, then a Simple Packet. -/
def c7Bytes : List Nat :=
  shbBytes ++ idb4Bytes ++ shbShortBytes ++ spbBytes

/-- The interface the C7 stream appends in its first section. -/
def iSnap4 : Interface :=
  { linkType := 1, snapLen := 4, tsoffset := 0, tsresol := 1000, options := [] }

/-- The `if_tsresol = 0x05` option as `#readOptions` decodes it. -/
def tsresolOpt : POpt :=
  { optionType := 9, name := some "if_tsresol", data := some [5] }

/-- The `if_tsoffset = 0x10000000` option as `#readOptions` decodes it. -/
def tsoffsetOpt : POpt :=
  { optionType := 14, name := some "if_tsoffset", bigint := some 268435456 }

/-- Body of an Interface Description block carrying `if_tsresol = 0x05` and
`if_tsoffset = 0x10000000` (the repository's decimal-timestamp test). -/
def idbDecBody : List Nat :=
  w16 1 ++ w16 0 ++ w32 0xFFFF ++
    (w16 9 ++ w16 1 ++ [5, 0, 0, 0]) ++
    (w16 0xE ++ w16 8 ++ [0, 0, 0, 0, 0x10, 0, 0, 0])

/-- That block, framed. -/
def idbDecBlock : Block :=
  { blockType := INTERFACE_DESCRIPTION, blockTotalLength := 40,
    data := ⟨idbDecBody, false⟩ }

/-- The interface it produces: `tsresol = 100`, `tsoffset = 0x10000000 * 1000`. -/
def iDec : Interface :=
  { linkType := 1, snapLen := 0xFFFF, tsoffset := 268435456000, tsresol := 100,
    options := [tsresolOpt, tsoffsetOpt] }

/-- A stream whose second block has the MSB-set (local-use) type
`0x80000001` and an empty body. -/
def unkBytes : List Nat :=
  shbBytes ++ (w32 0x80000001 ++ w32 12 ++ w32 12)

/-- The Simple Packet block of `spbBytes`, framed. -/
def spbBlock : Block :=
  { blockType := 3, blockTotalLength := 0x18,
    data := ⟨w32 6 ++ [1, 2, 3, 4, 5, 6, 0, 0], false⟩ }

/-- The S1 Section Header block, framed. -/
def shbBlock : Block :=
  { blockType := SECTION_HEADER, blockTotalLength := 0x1C,
    data := ⟨w32 0x1A2B3C4D ++ w16 1 ++ w16 0 ++ List.replicate 8 0xFF,
      false⟩ }

/-! ### Reader lemmas -/

theorem rbytes_split {n : Nat} (pre post : List Nat) (le : Bool)
    (h : pre.length = n) :
    rbytes n ⟨pre ++ post, le⟩ = .ok (pre, ⟨post, le⟩) := by
  have h1 : ¬ (pre ++ post).length < n := by
    rw [List.length_append]
    omega
  simp only [rbytes]
  rw [if_neg h1, List.take_left' h, List.drop_left' h]

theorem ru8_split (pre post : List Nat) (le : Bool) (h : pre.length = 1) :
    ru8 ⟨pre ++ post, le⟩ = .ok (decodeUInt le pre, ⟨post, le⟩) := by
  simp [ru8, rbytes_split pre post le h]

theorem ru16_split (pre post : List Nat) (le : Bool) (h : pre.length = 2) :
    ru16 ⟨pre ++ post, le⟩ = .ok (decodeUInt le pre, ⟨post, le⟩) := by
  simp [ru16, rbytes_split pre post le h]

theorem ru32_split (pre post : List Nat) (le : Bool) (h : pre.length = 4) :
    ru32 ⟨pre ++ post, le⟩ = .ok (decodeUInt le pre, ⟨post, le⟩) := by
  simp [ru32, rbytes_split pre post le h]

theorem ru64_split (pre post : List Nat) (le : Bool) (h : pre.length = 8) :
    ru64 ⟨pre ++ post, le⟩ = .ok (decodeUInt le pre, ⟨post, le⟩) := by
  simp [ru64, rbytes_split pre post le h]

theorem ri64_split (pre post : List Nat) (le : Bool) (h : pre.length = 8) :
    ri64 ⟨pre ++ post, le⟩ = .ok (decodeI64 le pre, ⟨post, le⟩) := by
  simp [ri64, rbytes_split pre post le h]

theorem rskip_split {n : Nat} (pre post : List Nat) (le : Bool)
    (h : pre.length = n) :
    rskip n ⟨pre ++ post, le⟩ = .ok ⟨post, le⟩ := by
  simp [rskip, rbytes_split pre post le h]

theorem rbytes_ok_length {n : Nat} {r : BReader} {v : List Nat} {r' : BReader}
    (h : rbytes n r = .ok (v, r')) :
    r.bytes.length = n + r'.bytes.length := by
  unfold rbytes at h
  split at h
  · exact absurd h (by simp)
  · rename_i hn
    cases h
    simp only [List.length_drop]
    omega

theorem rbytes_le_length {n : Nat} (r : BReader) (h : n ≤ r.bytes.length) :
    rbytes n r = .ok (r.bytes.take n, ⟨r.bytes.drop n, r.le⟩) := by
  unfold rbytes
  rw [if_neg (by omega)]

theorem rbytes_ok_le {r : BReader} {v : List Nat} {r' : BReader}
    (h : rbytes n r = .ok (v, r')) : r'.le = r.le := by
  unfold rbytes at h
  split at h
  · exact absurd h (by simp)
  · cases h; rfl

theorem ru8_ok_length {r : BReader} {v : Nat} {r' : BReader}
    (h : ru8 r = .ok (v, r')) : r.bytes.length = 1 + r'.bytes.length := by
  unfold ru8 at h
  cases hb : rbytes 1 r with
  | error e => rw [hb] at h; exact absurd h (by simp [Bind.bind, Except.bind])
  | ok p =>
    obtain ⟨bs, r₂⟩ := p
    rw [hb] at h
    simp only [Bind.bind, Except.bind, pure, Except.pure, Except.ok.injEq,
      Prod.mk.injEq] at h
    rw [← h.2]
    exact rbytes_ok_length hb

theorem ru16_ok_length {r : BReader} {v : Nat} {r' : BReader}
    (h : ru16 r = .ok (v, r')) : r.bytes.length = 2 + r'.bytes.length := by
  unfold ru16 at h
  cases hb : rbytes 2 r with
  | error e => rw [hb] at h; exact absurd h (by simp [Bind.bind, Except.bind])
  | ok p =>
    obtain ⟨bs, r₂⟩ := p
    rw [hb] at h
    simp only [Bind.bind, Except.bind, pure, Except.pure, Except.ok.injEq,
      Prod.mk.injEq] at h
    rw [← h.2]
    exact rbytes_ok_length hb

theorem ru32_ok_length {r : BReader} {v : Nat} {r' : BReader}
    (h : ru32 r = .ok (v, r')) : r.bytes.length = 4 + r'.bytes.length := by
  unfold ru32 at h
  cases hb : rbytes 4 r with
  | error e => rw [hb] at h; exact absurd h (by simp [Bind.bind, Except.bind])
  | ok p =>
    obtain ⟨bs, r₂⟩ := p
    rw [hb] at h
    simp only [Bind.bind, Except.bind, pure, Except.pure, Except.ok.injEq,
      Prod.mk.injEq] at h
    rw [← h.2]
    exact rbytes_ok_length hb

theorem ru64_ok_length {r : BReader} {v : Nat} {r' : BReader}
    (h : ru64 r = .ok (v, r')) : r.bytes.length = 8 + r'.bytes.length := by
  unfold ru64 at h
  cases hb : rbytes 8 r with
  | error e => rw [hb] at h; exact absurd h (by simp [Bind.bind, Except.bind])
  | ok p =>
    obtain ⟨bs, r₂⟩ := p
    rw [hb] at h
    simp only [Bind.bind, Except.bind, pure, Except.pure, Except.ok.injEq,
      Prod.mk.injEq] at h
    rw [← h.2]
    exact rbytes_ok_length hb

theorem rskip_ok_length {n : Nat} {r r' : BReader}
    (h : rskip n r = .ok r') : r.bytes.length = n + r'.bytes.length := by
  unfold rskip at h
  cases hb : rbytes n r with
  | error e => rw [hb] at h; exact absurd h (by simp [Bind.bind, Except.bind])
  | ok p =>
    obtain ⟨bs, r₂⟩ := p
    rw [hb] at h
    simp only [Bind.bind, Except.bind, pure, Except.pure, Except.ok.injEq] at h
    rw [← h]
    exact rbytes_ok_length hb

/-! ### Claim theorems -/

/-- C5: if the byte buffer raises `Truncation{4}` while the framer reads the
4-byte block type — in the model, fewer than 4 bytes remain of the completed
stream — then `#readBlock` returns none, the section loop terminates with no
further event and no fatal error, and the `#readFile` epilogue dispatches
exactly `close`: a stream ending on a block boundary ends with `close` and
no `error`. -/
theorem cleanEofAtBlockBoundary (s : BReader) (h : s.bytes.length < 4) :
    readBlock s = .ok none
    ∧ (∀ (fuel : Nat) (ints : List Interface),
        sectionLoop (fuel + 1) s ints = ([], none))
    ∧ (∀ (fuel : Nat) (ints : List Interface),
        finishEvents (sectionLoop (fuel + 1) s ints) = [PEvent.close]) := by
  have h1 : readBlock s = .ok none := by
    unfold readBlock
    rw [if_pos h]
  have h2 : ∀ (fuel : Nat) (ints : List Interface),
      sectionLoop (fuel + 1) s ints = ([], none) := by
    intro fuel ints
    simp only [sectionLoop, h1]
  exact ⟨h1, h2, fun fuel ints => by rw [h2 fuel ints]; rfl⟩

/-- Witness for C5 at the empty stream. -/
theorem cleanEofAtBlockBoundary_witness :
    (⟨[], false⟩ : BReader).bytes.length < 4
    ∧ finishEvents (sectionLoop 1 ⟨[], false⟩ []) = [PEvent.close] :=
  ⟨by decide, (cleanEofAtBlockBoundary ⟨[], false⟩ (by decide)).2.2 0 []⟩

/-- C4: for a valid `interfaceId` (and a positive `tsresol`, as every
interface built by the parser has), `#timestamp` yields exactly
`tsoffset + ((tsHigh <<< 32) ||| tsLow) / tsresol` with the shift-or equal
to the big integer `tsHigh * 2^32 + tsLow` and the division truncating
(`Int.tdiv`, as JS bigint `/`). -/
theorem timestamp_formula (ints : List Interface)
    (tsHigh tsLow interfaceId : Nat) (int : Interface)
    (hget : ints.get? interfaceId = some int)
    (hres : 0 < int.tsresol) (hlow : tsLow < 2 ^ 32) :
    timestamp ints tsHigh tsLow interfaceId =
      .ok (int.tsoffset +
        Int.tdiv ((tsHigh * 2 ^ 32 + tsLow : Nat) : Int) int.tsresol) := by
  have hor : (tsHigh <<< 32) ||| tsLow = tsHigh * 2 ^ 32 + tsLow := by
    rw [Nat.shiftLeft_eq, Nat.mul_comm, Nat.mul_add_lt_is_or hlow]
  simp only [timestamp, hget]
  rw [if_neg (by omega), hor]

/-- Witness for C4 at the decimal-resolution interface and the repository's
test timestamp `(tsHigh, tsLow) = (1, 0)`. -/
theorem timestamp_formula_witness :
    [iDec].get? 0 = some iDec ∧ (0 : Int) < iDec.tsresol
    ∧ (0 : Nat) < 2 ^ 32
    ∧ timestamp [iDec] 1 0 0 =
        .ok (iDec.tsoffset +
          Int.tdiv ((1 * 2 ^ 32 + 0 : Nat) : Int) iDec.tsresol) :=
  ⟨rfl, by decide, by decide,
    timestamp_formula [iDec] 1 0 0 iDec rfl (by decide) (by decide)⟩

/-- C2: fault isolation in the PCAPng section loop.  (1) When the framer
yields a block whose processor throws `e`, the loop dispatches one `error`
event whose value is `RecoverableError` wrapping `e` exactly once with the
cause preserved, and continues at the next block with the unchanged
interface table.  (2) An error thrown by the framer itself is not wrapped
and terminates the loop.  (3) The `#readFile` epilogue always ends with
`close`. -/
theorem blockErrors_recoverable_framerErrors_fatal :
    (∀ (s : BReader) (b : Block) (s' : BReader) (ints : List Interface)
        (e : PErr) (fuel : Nat),
        readBlock s = .ok (some (b, s')) →
        processBlock b ints = .error e →
        sectionLoop (fuel + 1) s ints =
          (PEvent.error (PErr.recoverable e) :: (sectionLoop fuel s' ints).1,
            (sectionLoop fuel s' ints).2))
    ∧ (∀ (s : BReader) (ints : List Interface) (e : PErr) (fuel : Nat),
        readBlock s = .error e →
        sectionLoop (fuel + 1) s ints = ([], some e))
    ∧ (∀ p : List PEvent × Option PErr,
        (finishEvents p).getLast? = some PEvent.close) := by
  refine ⟨?_, ?_, ?_⟩
  · intro s b s' ints e fuel hrb hpb
    rcases hrec : sectionLoop fuel s' ints with ⟨evs, f⟩
    simp only [sectionLoop, hrb, hpb, hrec]
  · intro s ints e fuel hrb
    simp only [sectionLoop, hrb]
  · intro p
    obtain ⟨evs, f⟩ := p
    cases f <;> simp [finishEvents]

/-- Witness for C2 at a Simple Packet block arriving with an empty interface
table: the framer succeeds, the processor throws, and the loop emits the
wrapped recoverable error. -/
theorem blockErrors_recoverable_framerErrors_fatal_witness :
    readBlock ⟨spbBytes, false⟩ = .ok (some (spbBlock, ⟨[], false⟩))
    ∧ processBlock spbBlock [] = .error .noInterfaceSimple
    ∧ sectionLoop 1 ⟨spbBytes, false⟩ [] =
        (PEvent.error (PErr.recoverable PErr.noInterfaceSimple) ::
          (sectionLoop 0 ⟨[], false⟩ []).1,
          (sectionLoop 0 ⟨[], false⟩ []).2) :=
  ⟨rfl, rfl,
    blockErrors_recoverable_framerErrors_fatal.1 ⟨spbBytes, false⟩ spbBlock
      ⟨[], false⟩ [] PErr.noInterfaceSimple 0 rfl rfl⟩

/-- C9 counterexample: the claim says a block whose type is negative as an
i32 (MSB set, local-use range) is silently ignored with no event.  But
`#readBlock` reads the type with `u32()` and the dispatch default emits
`unknown` unconditionally: on a stream whose second block has type
`0x80000001` — negative as an i32 — the parser emits
`unknown 0x80000001`, not nothing. -/
theorem unknownBlock_cex :
    asInt32 0x80000001 < 0
    ∧ readFile {} unkBytes =
        [.section shb0, .unknown 0x80000001, .close] := by
  exact ⟨by decide, by decide⟩

/-- C9 amended: the section loop reads the block type as an unsigned 32-bit
integer; every framed block whose type matches no known block kind —
including types with the most significant bit set — produces exactly one
`unknown` event carrying that unsigned value, and the loop continues; no
block type is silently ignored. -/
theorem unknownBlock_amended :
    ∀ (s : BReader) (b : Block) (s' : BReader) (ints : List Interface)
      (fuel : Nat),
      readBlock s = .ok (some (b, s')) →
      b.blockType ≠ SECTION_HEADER →
      b.blockType ≠ INTERFACE_DESCRIPTION →
      b.blockType ≠ SIMPLE_PACKET →
      b.blockType ≠ NAME_RESOLUTION →
      b.blockType ≠ INTERFACE_STATISTICS →
      b.blockType ≠ ENHANCED_PACKET →
      b.blockType ≠ DECRYPTION_SECRETS →
      b.blockType ≠ CUSTOM_COPY →
      b.blockType ≠ CUSTOM_NOCOPY →
      sectionLoop (fuel + 1) s ints =
        (PEvent.unknown b.blockType :: (sectionLoop fuel s' ints).1,
          (sectionLoop fuel s' ints).2) := by
  intro s b s' ints fuel hrb h1 h2 h3 h4 h5 h6 h7 h8 h9
  have hpb : processBlock b ints = .ok ([.unknown b.blockType], ints) := by
    unfold processBlock
    rw [if_neg h1, if_neg h2, if_neg h3, if_neg h4, if_neg h5, if_neg h6,
      if_neg h7, if_neg (by exact fun hc => hc.elim h8 h9)]
  rcases hrec : sectionLoop fuel s' ints with ⟨evs, f⟩
  simp only [sectionLoop, hrb, hpb, hrec, List.singleton_append]

/-- Witness for the amended C9 at the concrete `0x80000001` block. -/
theorem unknownBlock_amended_witness :
    readBlock ⟨w32 0x80000001 ++ w32 12 ++ w32 12, false⟩ =
      .ok (some (⟨0x80000001, 12, ⟨[], false⟩⟩, ⟨[], false⟩))
    ∧ sectionLoop 1 ⟨w32 0x80000001 ++ w32 12 ++ w32 12, false⟩ [] =
        (PEvent.unknown 0x80000001 :: (sectionLoop 0 ⟨[], false⟩ []).1,
          (sectionLoop 0 ⟨[], false⟩ []).2) :=
  ⟨rfl,
    unknownBlock_amended ⟨w32 0x80000001 ++ w32 12 ++ w32 12, false⟩
      ⟨0x80000001, 12, ⟨[], false⟩⟩ ⟨[], false⟩ [] 0 rfl
      (by decide) (by decide) (by decide) (by decide) (by decide)
      (by decide) (by decide) (by decide) (by decide)⟩

/-- C7 counterexample: the reset of the interface table happens only at the
end of a successful `#processSectionHeader`.  On this stream the second
Section Header block dies with a recoverable truncation while decoding its
own header, so the first section's interface table survives into the new
section: the following Simple Packet finds interface 0 (emitting `data`
truncated to the old `snapLen = 4`) instead of the
`No interface for simple packet` error the claimed invariant would force. -/
theorem sectionReset_cex :
    readFile {} c7Bytes =
      [.section shb0, .iface iSnap4,
        .error (.recoverable (.truncation 2)),
        .data ⟨0, none, none, 6, [1, 2, 3, 4], []⟩,
        .close]
    ∧ PEvent.error (PErr.recoverable PErr.noInterfaceSimple) ∉
        readFile {} c7Bytes := by
  exact ⟨by decide, by decide⟩

/-- C7 amended: whenever `#processSectionHeader` completes without throwing,
the resulting interface table is empty — the reset happens after the header
and options decode, immediately before the `section` event; a Section
Header block whose processing throws leaves the previous section's
interface table in place (per the counterexample). -/
theorem sectionReset_amended :
    ∀ (b : Block) (ints : List Interface) (evs : List PEvent)
      (ints' : List Interface),
      processSectionHeader b ints = .ok (evs, ints') → ints' = [] := by
  intro b ints evs ints' h
  unfold processSectionHeader at h
  simp only [Bind.bind, Except.bind, pure, Except.pure] at h
  repeat' split at h
  all_goals
    first
      | (cases h; rfl)
      | exact absurd h (by simp)

/-- Witness for the amended C7 at the minimal Section Header block, with a
non-empty incoming interface table. -/
theorem sectionReset_amended_witness :
    processSectionHeader shbBlock [iSnap4] = .ok ([.section shb0], [])
    ∧ ([] : List Interface) = [] :=
  ⟨rfl, sectionReset_amended shbBlock [iSnap4] [PEvent.section shb0] [] rfl⟩

/-- C8 counterexample: with `if_tsresol = 0x05` and
`if_tsoffset = 0x10000000` the interface indeed has `tsresol = 100` and
`tsoffset = 0x10000000 * 1000`, but a packet with
`(tsHigh, tsLow) = (0, 1)` — as the claim states the pair — yields the
instant `268435456000` ms (`1 / 100` truncates to zero), not the claimed
`268478405672` ms. -/
theorem tsresolExample_cex :
    processInterface idbDecBlock [] = .ok ([.iface iDec], [iDec])
    ∧ iDec.tsresol = 100 ∧ iDec.tsoffset = 0x10000000 * 1000
    ∧ timestamp [iDec] 0 1 0 = .ok 268435456000
    ∧ (268435456000 : Int) ≠ 268478405672 :=
  ⟨rfl, by decide, by decide, rfl, by decide⟩

/-- C8 amended: same interface, but the packet carries
`(tsHigh, tsLow) = (1, 0)` (as in the repository's decimal-timestamp test):
the instant is `0x10000000 * 1000 + (1 <<< 32) / 100 = 268478405672` ms. -/
theorem tsresolExample_amended :
    processInterface idbDecBlock [] = .ok ([.iface iDec], [iDec])
    ∧ iDec.tsresol = 100 ∧ iDec.tsoffset = 0x10000000 * 1000
    ∧ timestamp [iDec] 1 0 0 = .ok 268478405672 :=
  ⟨rfl, by decide, by decide, rfl⟩

/-- C6: `#processSimplePacket` with an empty interface table throws
`No interface for simple packet` (a recoverable error once wrapped by the
loop); with at least one interface it reads the u32
`originalPacketLength`, consumes `min(originalPacketLength, snapLen)` bytes
of the first interface's snap length, and emits a `data` event with
`interfaceId = 0`, no timestamp, and an empty option list. -/
theorem simplePacket_spec :
    (∀ b : Block, processSimplePacket b [] = .error .noInterfaceSimple)
    ∧ (∀ (b : Block) (int : Interface) (rest : List Interface)
        (oplB payload : List Nat),
        b.data.bytes = oplB ++ payload →
        oplB.length = 4 →
        Nat.min (decodeUInt b.data.le oplB) int.snapLen ≤ payload.length →
        processSimplePacket b (int :: rest) =
          .ok ([.data
                 { interfaceId := 0,
                   originalPacketLength := decodeUInt b.data.le oplB,
                   data := payload.take
                     (Nat.min (decodeUInt b.data.le oplB) int.snapLen),
                   options := [] }], int :: rest)) := by
  constructor
  · intro b; rfl
  · intro b int rest oplB payload hb h4 hlen
    rcases b with ⟨bt, btl, ⟨bbytes, ble⟩⟩
    simp only at hb hlen ⊢
    subst hb
    unfold processSimplePacket
    simp only [Bind.bind, Except.bind, ru32_split oplB payload ble h4,
      rbytes_le_length ⟨payload, ble⟩ hlen, pure, Except.pure]

/-- Witness for C6: the S2/S3 Simple Packet block, without and with an
interface of `snapLen = 4`. -/
theorem simplePacket_spec_witness :
    processSimplePacket spbBlock [] = .error .noInterfaceSimple
    ∧ processSimplePacket spbBlock [iSnap4] =
        .ok ([.data
               { interfaceId := 0,
                 originalPacketLength := decodeUInt spbBlock.data.le (w32 6),
                 data := [1, 2, 3, 4, 5, 6, 0, 0].take
                   (Nat.min (decodeUInt spbBlock.data.le (w32 6))
                     iSnap4.snapLen),
                 options := [] }], [iSnap4]) :=
  ⟨simplePacket_spec.1 spbBlock,
    simplePacket_spec.2 spbBlock iSnap4 [] (w32 6) [1, 2, 3, 4, 5, 6, 0, 0]
      rfl (by decide) (by decide)⟩

end PcapNg

namespace PcapNg

theorem splitNul_ne_nil (l : List Nat) : splitNul l ≠ [] := by
  cases l with
  | nil => simp [splitNul]
  | cons b rest =>
    unfold splitNul
    split
    · simp
    · split <;> simp

theorem splitNul_cons_ne (b : Nat) (hb : b ≠ 0) (rest : List Nat) :
    splitNul (b :: rest) =
      match splitNul rest with
      | [] => [[b]]
      | t :: ts => (b :: t) :: ts := by
  conv_lhs => rw [splitNul]
  rw [if_neg hb]

theorem splitNul_append_nul (w t : List Nat) :
    splitNul (w ++ 0 :: t) = splitNul w ++ splitNul t := by
  have h0 : ∀ X : List Nat, splitNul (0 :: X) = [] :: splitNul X :=
    fun X => rfl
  induction w with
  | nil =>
    show splitNul (0 :: t) = splitNul [] ++ splitNul t
    rw [h0]
    rfl
  | cons b w ih =>
    by_cases hb : b = 0
    · subst hb
      rw [List.cons_append, h0, h0, ih, List.cons_append]
    · rcases hsw : splitNul w with _ | ⟨t1, ts⟩
      · exact absurd hsw (splitNul_ne_nil w)
      · rw [List.cons_append, splitNul_cons_ne b hb, splitNul_cons_ne b hb,
          ih, hsw]
        rfl

theorem splitNul_no_nul (t : List Nat) (h : ∀ x ∈ t, x ≠ 0) :
    splitNul t = [t] := by
  induction t with
  | nil => rfl
  | cons b t ih =>
    have hb : b ≠ 0 := h b (List.mem_cons_self b t)
    have ht : splitNul t = [t] :=
      ih (fun x hx => h x (List.mem_cons_of_mem b hx))
    unfold splitNul
    rw [if_neg hb, ht]

theorem nrLoop_term (fuel : Nat) (le : Bool) :
    nrLoop (fuel + 1) ⟨[0, 0, 0, 0], le⟩ = .ok ([], ⟨[], le⟩) := by
  cases le <;> rfl

theorem nrLoop_term' (f : Nat) (le : Bool) (hf : 1 ≤ f) :
    nrLoop f ⟨[0, 0, 0, 0], le⟩ = .ok ([], ⟨[], le⟩) := by
  obtain ⟨g, rfl⟩ := Nat.exists_eq_add_of_le hf
  rw [Nat.add_comm]
  exact nrLoop_term g le

theorem readOptions_nil (ints : List Interface) (bt : Nat) (le : Bool)
    (iid : Option Nat) :
    readOptions ints bt ⟨[], le⟩ iid = .ok ([], ⟨[], le⟩) := rfl

/-- C10: for every Name Resolution record of type ipv4 (1), ipv6 (2),
eui48 (3) or eui64 (4), the emitted `entries` list is the record's name
region (the value after the address bytes) split on NUL with the final
split element always removed (`.split('\x00').slice(0, -1)`).  The second
conjunct shows that a name region ending in NUL contributes exactly its
tokens plus one trailing empty token — so only the empty token is dropped —
and the third shows that a NUL-free region is one single token, which
`dropLast` then silently discards. -/
theorem nrEntries_dropLast :
    (∀ (ints : List Interface) (bt btl : Nat) (le : Bool)
        (rtB rlB val padB : List Nat) (rt : Nat),
        rtB.length = 2 → rlB.length = 2 →
        decodeUInt le rtB = rt →
        decodeUInt le rlB = val.length →
        padB.length = pad4 val.length →
        (rt = 1 ∨ rt = 2 ∨ rt = 3 ∨ rt = 4) →
        (if rt = 1 then 4 else if rt = 2 then 16 else if rt = 3 then 6
          else 8) + 2 ≤ val.length →
        ∃ rec : NRRec,
          processNameResolution
              ⟨bt, btl, ⟨rtB ++ rlB ++ val ++ padB ++ [0, 0, 0, 0], le⟩⟩
              ints =
            .ok ([.names ⟨[rec], []⟩], ints)
          ∧ rec.entries =
              (splitNul (val.drop
                (if rt = 1 then 4 else if rt = 2 then 16 else if rt = 3
                  then 6 else 8))).dropLast)
    ∧ (∀ w t : List Nat, splitNul (w ++ 0 :: t) = splitNul w ++ splitNul t)
    ∧ (∀ t : List Nat, (∀ x ∈ t, x ≠ 0) → splitNul t = [t]) := by
  refine ⟨?_, splitNul_append_nul, splitNul_no_nul⟩
  intro ints bt btl le rtB rlB val padB rt h2a h2b hrt hrl hpad hcases hmin
  rcases hcases with rfl | rfl | rfl | rfl
  · have hmin' : 4 + 2 ≤ val.length := hmin
    refine ⟨⟨"nrb_record_ipv4", .ip (val.take 4),
      (splitNul (val.drop 4)).dropLast⟩, ?_, rfl⟩
    have hloop :
        nrLoop ((rtB ++ rlB ++ val ++ padB ++ [0, 0, 0, 0]).length + 1)
          ⟨rtB ++ rlB ++ val ++ padB ++ [0, 0, 0, 0], le⟩ =
        .ok ([⟨"nrb_record_ipv4", .ip (val.take 4),
          (splitNul (val.drop 4)).dropLast⟩], ⟨[], le⟩) := by
      simp only [List.append_assoc]
      simp only [nrLoop, Bind.bind, Except.bind, ru16_split, rbytes_split,
        rskip_split, h2a, h2b, hrt, hrl, hpad]
      rw [if_neg (by omega : ¬ val.length < 6)]
      simp only [pure, Except.pure]
      rw [nrLoop_term' _ le (by
        simp only [List.length_append, List.length_cons, List.length_nil]
        omega)]
      rfl
    simp only [processNameResolution, Bind.bind, Except.bind, hloop,
      readOptions_nil, pure, Except.pure]
  · have hmin' : 16 + 2 ≤ val.length := hmin
    refine ⟨⟨"nrb_record_ipv6", .ip (val.take 16),
      (splitNul (val.drop 16)).dropLast⟩, ?_, rfl⟩
    have hloop :
        nrLoop ((rtB ++ rlB ++ val ++ padB ++ [0, 0, 0, 0]).length + 1)
          ⟨rtB ++ rlB ++ val ++ padB ++ [0, 0, 0, 0], le⟩ =
        .ok ([⟨"nrb_record_ipv6", .ip (val.take 16),
          (splitNul (val.drop 16)).dropLast⟩], ⟨[], le⟩) := by
      simp only [List.append_assoc]
      simp only [nrLoop, Bind.bind, Except.bind, ru16_split, rbytes_split,
        rskip_split, h2a, h2b, hrt, hrl, hpad]
      rw [if_neg (by omega : ¬ val.length < 18)]
      simp only [pure, Except.pure]
      rw [nrLoop_term' _ le (by
        simp only [List.length_append, List.length_cons, List.length_nil]
        omega)]
      rfl
    simp only [processNameResolution, Bind.bind, Except.bind, hloop,
      readOptions_nil, pure, Except.pure]
  · have hmin' : 6 + 2 ≤ val.length := hmin
    refine ⟨⟨"nrb_record_eui48", .plain (colons (val.take 6)),
      (splitNul (val.drop 6)).dropLast⟩, ?_, rfl⟩
    have hloop :
        nrLoop ((rtB ++ rlB ++ val ++ padB ++ [0, 0, 0, 0]).length + 1)
          ⟨rtB ++ rlB ++ val ++ padB ++ [0, 0, 0, 0], le⟩ =
        .ok ([⟨"nrb_record_eui48", .plain (colons (val.take 6)),
          (splitNul (val.drop 6)).dropLast⟩], ⟨[], le⟩) := by
      simp only [List.append_assoc]
      simp only [nrLoop, Bind.bind, Except.bind, ru16_split, rbytes_split,
        rskip_split, h2a, h2b, hrt, hrl, hpad]
      rw [if_neg (by omega : ¬ val.length < 8)]
      simp only [pure, Except.pure]
      rw [nrLoop_term' _ le (by
        simp only [List.length_append, List.length_cons, List.length_nil]
        omega)]
      rfl
    simp only [processNameResolution, Bind.bind, Except.bind, hloop,
      readOptions_nil, pure, Except.pure]
  · have hmin' : 8 + 2 ≤ val.length := hmin
    refine ⟨⟨"nrb_record_eui64", .plain (colons (val.take 8)),
      (splitNul (val.drop 8)).dropLast⟩, ?_, rfl⟩
    have hloop :
        nrLoop ((rtB ++ rlB ++ val ++ padB ++ [0, 0, 0, 0]).length + 1)
          ⟨rtB ++ rlB ++ val ++ padB ++ [0, 0, 0, 0], le⟩ =
        .ok ([⟨"nrb_record_eui64", .plain (colons (val.take 8)),
          (splitNul (val.drop 8)).dropLast⟩], ⟨[], le⟩) := by
      simp only [List.append_assoc]
      simp only [nrLoop, Bind.bind, Except.bind, ru16_split, rbytes_split,
        rskip_split, h2a, h2b, hrt, hrl, hpad]
      rw [if_neg (by omega : ¬ val.length < 10)]
      simp only [pure, Except.pure]
      rw [nrLoop_term' _ le (by
        simp only [List.length_append, List.length_cons, List.length_nil]
        omega)]
      rfl
    simp only [processNameResolution, Bind.bind, Except.bind, hloop,
      readOptions_nil, pure, Except.pure]

/-- Witness for C10 at an ipv4 record `127.0.0.1` with name region
`"localhost\0"`. -/
theorem nrEntries_dropLast_witness :
    ∃ rec : NRRec,
      processNameResolution
          ⟨4, 36, ⟨w16 1 ++ w16 14 ++
            [127, 0, 0, 1, 108, 111, 99, 97, 108, 104, 111, 115, 116, 0] ++
            [0, 0] ++ [0, 0, 0, 0], false⟩⟩ [] =
        .ok ([.names ⟨[rec], []⟩], [])
      ∧ rec.entries =
          (splitNul
            ([127, 0, 0, 1, 108, 111, 99, 97, 108, 104, 111, 115, 116,
              0].drop
              (if 1 = 1 then 4 else if 1 = 2 then 16 else if 1 = 3 then 6
                else 8))).dropLast :=
  nrEntries_dropLast.1 [] 4 36 false (w16 1) (w16 14)
    [127, 0, 0, 1, 108, 111, 99, 97, 108, 104, 111, 115, 116, 0] [0, 0] 1
    (by decide) (by decide) (by decide) (by decide) (by decide)
    (Or.inl rfl) (by decide)

/-- The tail of `#readBlock` after the block type has been consumed and the
endianness settled: reading the total length, body, padding and trailing
length over a wire-exact layout ends in the `Length mismatch` error when
the trailing length differs. -/
theorem readBlockTail_mismatch (l2 : Bool) (lB body padB eB rest : List Nat)
    (ty total endTotal : Nat)
    (hlB : lB.length = 4) (heB : eB.length = 4)
    (htotal : decodeUInt l2 lB = total) (hend : decodeUInt l2 eB = endTotal)
    (hbody : body.length = total - 12)
    (hpadB : padB.length = pad4 (total - 12))
    (hne : endTotal ≠ total) :
    (do
      let (blockTotalLength, s) ←
        ru32 (⟨lB ++ (body ++ (padB ++ (eB ++ rest))), l2⟩ : BReader)
      let dataLen := blockTotalLength - 12
      let (bdy, s) ← rbytes dataLen s
      let s ← rskip (pad4 dataLen) s
      let (endTotalLength, s) ← ru32 s
      if endTotalLength ≠ blockTotalLength then
        Except.error (PErr.lengthMismatch endTotalLength blockTotalLength)
      else
        Except.ok (some ((⟨ty, blockTotalLength, ⟨bdy, s.le⟩⟩ : Block), s)) :
      Except PErr (Option (Block × BReader))) =
      .error (.lengthMismatch endTotal total) := by
  simp only [Bind.bind, Except.bind, ru32_split, hlB, heB, htotal, hend,
    rbytes_split, hbody, rskip_split, hpadB]
  rw [if_pos hne]

/-- C1: a PCAPng block laid out on the wire as
`type ++ length ++ body ++ padding ++ trailingLength ++ rest` whose decoded
trailing length differs from the leading `blockTotalLength` makes
`#readBlock` throw the fatal `Length mismatch` error; the section loop then
stops with that error and dispatches nothing for this block or any later
one, and the `#readFile` epilogue dispatches exactly the `error` event
followed by `close`.  Section Header blocks are covered including an
endianness flip by their byte-order magic (`le'` is the endianness in force
after the sniff). -/
theorem lengthMismatch_is_fatal
    (le : Bool) (tB lB body padB eB rest : List Nat)
    (htB : tB.length = 4) (hlB : lB.length = 4) (heB : eB.length = 4)
    (ty total endTotal : Nat) (le' : Bool)
    (hty : decodeUInt le tB = ty)
    (hle' : le' = (if ty = SECTION_HEADER ∧
        decodeUInt le (body.take 4) = 0x4D3C2B1A then !le else le))
    (htotal : decodeUInt le' lB = total)
    (hend : decodeUInt le' eB = endTotal)
    (hSH : ty = SECTION_HEADER →
      4 ≤ body.length ∧ (decodeUInt le (body.take 4) = 0x1A2B3C4D ∨
        decodeUInt le (body.take 4) = 0x4D3C2B1A))
    (_h12 : 12 ≤ total)
    (hbody : body.length = total - 12)
    (hpadB : padB.length = pad4 (total - 12))
    (hne : endTotal ≠ total) :
    readBlock ⟨tB ++ lB ++ body ++ padB ++ eB ++ rest, le⟩ =
      .error (.lengthMismatch endTotal total)
    ∧ (∀ (fuel : Nat) (ints : List Interface),
        sectionLoop (fuel + 1) ⟨tB ++ lB ++ body ++ padB ++ eB ++ rest, le⟩
          ints = ([], some (.lengthMismatch endTotal total)))
    ∧ (∀ (fuel : Nat) (ints : List Interface),
        finishEvents (sectionLoop (fuel + 1)
          ⟨tB ++ lB ++ body ++ padB ++ eB ++ rest, le⟩ ints) =
          [.error (.lengthMismatch endTotal total), .close]) := by
  have hrb : readBlock ⟨tB ++ lB ++ body ++ padB ++ eB ++ rest, le⟩ =
      .error (.lengthMismatch endTotal total) := by
    simp only [List.append_assoc]
    unfold readBlock
    rw [if_neg (by simp only [List.length_append]; omega)]
    simp only [Bind.bind, Except.bind, ru32_split, htB, hty]
    by_cases hSHc : ty = SECTION_HEADER
    · obtain ⟨hb4, hbom⟩ := hSH hSHc
      rw [if_pos hSHc]
      have hpeek : rpeek 8 ⟨lB ++ (body ++ (padB ++ (eB ++ rest))), le⟩ =
          .ok (lB ++ body.take 4) := by
        have hsplit : lB ++ (body ++ (padB ++ (eB ++ rest))) =
            (lB ++ body.take 4) ++
              (body.drop 4 ++ (padB ++ (eB ++ rest))) := by
          conv_lhs => rw [← List.take_append_drop 4 body]
          simp only [List.append_assoc]
        rw [hsplit]
        unfold rpeek
        rw [if_neg (by
          simp only [List.length_append, List.length_take, List.length_drop]
          omega)]
        rw [List.take_left' (by
          simp only [List.length_append, List.length_take]
          omega)]
      have hdt : ((lB ++ body.take 4).drop 4).take 4 = body.take 4 := by
        rw [List.drop_left' hlB,
          List.take_of_length_le (by simp [List.length_take])]
      simp only [Bind.bind, Except.bind, hpeek, hdt]
      rcases hbom with hk | hf
      · have hle : le' = le := by
          rw [hle', if_neg]
          rintro ⟨-, hc⟩
          rw [hk] at hc
          omega
        rw [hle] at htotal hend
        rw [hk, if_pos rfl]
        simp only [pure, Except.pure]
        exact readBlockTail_mismatch le lB body padB eB rest ty total
          endTotal hlB heB htotal hend hbody hpadB hne
      · have hle : le' = !le := by
          rw [hle', if_pos ⟨hSHc, hf⟩]
        rw [hle] at htotal hend
        rw [hf, if_neg (by omega), if_pos rfl]
        simp only [pure, Except.pure]
        exact readBlockTail_mismatch (!le) lB body padB eB rest ty total
          endTotal hlB heB htotal hend hbody hpadB hne
    · have hle : le' = le := by
        rw [hle', if_neg]
        rintro ⟨hc, -⟩
        exact hSHc hc
      rw [hle] at htotal hend
      rw [if_neg hSHc]
      simp only [pure, Except.pure]
      exact readBlockTail_mismatch le lB body padB eB rest ty total endTotal
        hlB heB htotal hend hbody hpadB hne
  have hloop : ∀ (fuel : Nat) (ints : List Interface),
      sectionLoop (fuel + 1) ⟨tB ++ lB ++ body ++ padB ++ eB ++ rest, le⟩
        ints = ([], some (.lengthMismatch endTotal total)) := by
    intro fuel ints
    simp only [sectionLoop, hrb]
  exact ⟨hrb, hloop, fun fuel ints => by rw [hloop fuel ints]; rfl⟩

/-- Witness for C1 at the spec's seed vector: a big-endian Section Header
block with leading length `0x1C` and trailing length `0x1D`. -/
theorem lengthMismatch_is_fatal_witness :
    finishEvents (sectionLoop (0 + 1)
        ⟨[0x0A, 0x0D, 0x0D, 0x0A] ++ [0, 0, 0, 0x1C] ++
          ([0x1A, 0x2B, 0x3C, 0x4D] ++ [0, 1] ++ [0, 0] ++
            List.replicate 8 0xFF) ++ [] ++ [0, 0, 0, 0x1D] ++ [],
          false⟩ []) =
      [.error (.lengthMismatch 29 28), .close] :=
  (lengthMismatch_is_fatal false [0x0A, 0x0D, 0x0D, 0x0A] [0, 0, 0, 0x1C]
    ([0x1A, 0x2B, 0x3C, 0x4D] ++ [0, 1] ++ [0, 0] ++ List.replicate 8 0xFF)
    [] [0, 0, 0, 0x1D] [] (by decide) (by decide) (by decide)
    0x0A0D0D0A 28 29 false (by decide) (by decide) (by decide) (by decide)
    (by decide) (by decide) (by decide) (by decide) (by decide)).2.2 0 []

/-- Length bookkeeping for the raw/length-typed option branches: a value
read of `dataLength` bytes followed by the `pad4(dataLength)` skip. -/
theorem lenSkip_consumption {dl : Nat} {r r1 r2 : BReader} {bs : List Nat}
    (h1 : rbytes dl r = .ok (bs, r1)) (h2 : rskip (pad4 dl) r1 = .ok r2) :
    r.bytes.length = (dl + pad4 dl) + r2.bytes.length := by
  have e1 := rbytes_ok_length h1
  have e2 := rskip_ok_length h2
  omega

/-- C3 amended: for every decoded option, the value-plus-padding
consumption equals `dataLength + pad4(dataLength)` when the option (a) has
no dictionary entry, or (b) has a dictionary entry without PEN whose
fixed-width types match the declared length (`u32` with 4, `u64` and
`timestamp` with 8; the length-checked ipv4mask/ipv6prefix types enforce
their own lengths), or (c) is a PEN option of string type with
`dataLength >= 4` (the PEN is part of the `dataLength` bytes, codes
2988/19372).  For raw PEN options (codes 2989/19373) the decoder instead
consumes `4 + dataLength + pad4(dataLength)` bytes: it reads the PEN and
then a full `dataLength` more, contrary to the original claim. -/
theorem optionConsumption_amended :
    ∀ (ints : List Interface) (iid : Option Nat) (bt ot dl : Nat)
      (r : BReader) (opt : POpt) (r' : BReader),
      readOptionValue ints iid bt ot dl r = .ok (opt, r') →
      (optionDesc bt ot = none →
        r.bytes.length = (dl + pad4 dl) + r'.bytes.length)
      ∧ (∀ (nm : String) (ty : Option OptTy) (pf : Bool),
          optionDesc bt ot = some (nm, ty, pf) →
          (pf = true → 4 ≤ dl ∧ ty = some OptTy.str) →
          (ty = some OptTy.u32 → dl = 4) →
          (ty = some OptTy.u64 → dl = 8) →
          (ty = some OptTy.timestamp → dl = 8) →
          r.bytes.length = (dl + pad4 dl) + r'.bytes.length)
      ∧ (∀ nm : String, optionDesc bt ot = some (nm, none, true) →
          r.bytes.length = (4 + (dl + pad4 dl)) + r'.bytes.length) := by
  intro ints iid bt ot dl r opt r' hok
  refine ⟨?_, ?_, ?_⟩
  · intro hdesc
    simp only [readOptionValue, hdesc, Bind.bind, Except.bind, pure,
      Except.pure] at hok
    cases h1 : rbytes dl r with
    | error e => rw [h1] at hok; exact absurd hok (by simp)
    | ok p =>
      obtain ⟨bs, r1⟩ := p
      simp only [h1] at hok
      cases h2 : rskip (pad4 dl) r1 with
      | error e => rw [h2] at hok; exact absurd hok (by simp)
      | ok r2 =>
        simp only [h2] at hok
        cases hok
        exact lenSkip_consumption h1 h2
  · intro nm ty pf hdesc hpen h32 h64 hts
    cases pf with
    | true =>
      obtain ⟨hdl, hty⟩ := hpen rfl
      subst hty
      simp only [readOptionValue, hdesc, Bind.bind, Except.bind, pure,
        Except.pure, eq_self_iff_true, if_true] at hok
      cases h0 : ru32 r with
      | error e => rw [h0] at hok; exact absurd hok (by simp)
      | ok p =>
        obtain ⟨pv, r0⟩ := p
        simp only [h0] at hok
        cases h1 : rbytes (dl - 4) r0 with
        | error e => rw [h1] at hok; exact absurd hok (by simp)
        | ok p =>
          obtain ⟨bs, r1⟩ := p
          simp only [h1] at hok
          cases h2 : rskip (pad4 dl) r1 with
          | error e => rw [h2] at hok; exact absurd hok (by simp)
          | ok r2 =>
            simp only [h2] at hok
            cases hok
            have e0 := ru32_ok_length h0
            have e1 := rbytes_ok_length h1
            have e2 := rskip_ok_length h2
            omega
    | false =>
      cases ty with
      | none =>
        simp only [readOptionValue, hdesc, Bind.bind, Except.bind, pure,
          Except.pure, Bool.false_eq_true, if_false] at hok
        cases h1 : rbytes dl r with
        | error e => rw [h1] at hok; exact absurd hok (by simp)
        | ok p =>
          obtain ⟨bs, r1⟩ := p
          simp only [h1] at hok
          cases h2 : rskip (pad4 dl) r1 with
          | error e => rw [h2] at hok; exact absurd hok (by simp)
          | ok r2 =>
            simp only [h2] at hok
            cases hok
            exact lenSkip_consumption h1 h2
      | some t =>
        cases t with
        | str =>
          simp only [readOptionValue, hdesc, Bind.bind, Except.bind, pure,
            Except.pure, Bool.false_eq_true, if_false] at hok
          cases h1 : rbytes dl r with
          | error e => rw [h1] at hok; exact absurd hok (by simp)
          | ok p =>
            obtain ⟨bs, r1⟩ := p
            simp only [h1] at hok
            cases h2 : rskip (pad4 dl) r1 with
            | error e => rw [h2] at hok; exact absurd hok (by simp)
            | ok r2 =>
              simp only [h2] at hok
              cases hok
              exact lenSkip_consumption h1 h2
        | ipv4 =>
          simp only [readOptionValue, hdesc, Bind.bind, Except.bind, pure,
            Except.pure, Bool.false_eq_true, if_false] at hok
          cases h1 : rbytes dl r with
          | error e => rw [h1] at hok; exact absurd hok (by simp)
          | ok p =>
            obtain ⟨bs, r1⟩ := p
            simp only [h1] at hok
            cases h2 : rskip (pad4 dl) r1 with
            | error e => rw [h2] at hok; exact absurd hok (by simp)
            | ok r2 =>
              simp only [h2] at hok
              cases hok
              exact lenSkip_consumption h1 h2
        | ipv6 =>
          simp only [readOptionValue, hdesc, Bind.bind, Except.bind, pure,
            Except.pure, Bool.false_eq_true, if_false] at hok
          cases h1 : rbytes dl r with
          | error e => rw [h1] at hok; exact absurd hok (by simp)
          | ok p =>
            obtain ⟨bs, r1⟩ := p
            simp only [h1] at hok
            cases h2 : rskip (pad4 dl) r1 with
            | error e => rw [h2] at hok; exact absurd hok (by simp)
            | ok r2 =>
              simp only [h2] at hok
              cases hok
              exact lenSkip_consumption h1 h2
        | eui =>
          simp only [readOptionValue, hdesc, Bind.bind, Except.bind, pure,
            Except.pure, Bool.false_eq_true, if_false] at hok
          cases h1 : rbytes dl r with
          | error e => rw [h1] at hok; exact absurd hok (by simp)
          | ok p =>
            obtain ⟨bs, r1⟩ := p
            simp only [h1] at hok
            cases h2 : rskip (pad4 dl) r1 with
            | error e => rw [h2] at hok; exact absurd hok (by simp)
            | ok r2 =>
              simp only [h2] at hok
              cases hok
              exact lenSkip_consumption h1 h2
        | ipv4mask =>
          simp only [readOptionValue, hdesc, Bind.bind, Except.bind, pure,
            Except.pure, Bool.false_eq_true, if_false] at hok
          by_cases hdl : dl = 8
          · rw [if_neg (by omega)] at hok
            subst hdl
            cases h1 : rbytes 4 r with
            | error e => rw [h1] at hok; exact absurd hok (by simp)
            | ok p =>
              obtain ⟨a4, r1⟩ := p
              simp only [h1] at hok
              cases h2 : rbytes 4 r1 with
              | error e => rw [h2] at hok; exact absurd hok (by simp)
              | ok p =>
                obtain ⟨m4, r2⟩ := p
                simp only [h2] at hok
                cases h3 : rskip (pad4 8) r2 with
                | error e => rw [h3] at hok; exact absurd hok (by simp)
                | ok r3 =>
                  simp only [h3] at hok
                  cases hok
                  have e1 := rbytes_ok_length h1
                  have e2 := rbytes_ok_length h2
                  have e3 := rskip_ok_length h3
                  omega
          · rw [if_pos hdl] at hok
            exact absurd hok (by simp)
        | ipv6Pfx =>
          simp only [readOptionValue, hdesc, Bind.bind, Except.bind, pure,
            Except.pure, Bool.false_eq_true, if_false] at hok
          by_cases hdl : dl = 17
          · rw [if_neg (by omega)] at hok
            subst hdl
            cases h1 : rbytes 16 r with
            | error e => rw [h1] at hok; exact absurd hok (by simp)
            | ok p =>
              obtain ⟨a16, r1⟩ := p
              simp only [h1] at hok
              cases h2 : ru8 r1 with
              | error e => rw [h2] at hok; exact absurd hok (by simp)
              | ok p =>
                obtain ⟨pv, r2⟩ := p
                simp only [h2] at hok
                cases h3 : rskip (pad4 17) r2 with
                | error e => rw [h3] at hok; exact absurd hok (by simp)
                | ok r3 =>
                  simp only [h3] at hok
                  cases hok
                  have e1 := rbytes_ok_length h1
                  have e2 := ru8_ok_length h2
                  have e3 := rskip_ok_length h3
                  omega
          · rw [if_pos hdl] at hok
            exact absurd hok (by simp)
        | u32 =>
          have hdl := h32 rfl
          subst hdl
          simp only [readOptionValue, hdesc, Bind.bind, Except.bind, pure,
            Except.pure, Bool.false_eq_true, if_false] at hok
          cases h1 : ru32 r with
          | error e => rw [h1] at hok; exact absurd hok (by simp)
          | ok p =>
            obtain ⟨v, r1⟩ := p
            simp only [h1] at hok
            cases h2 : rskip (pad4 4) r1 with
            | error e => rw [h2] at hok; exact absurd hok (by simp)
            | ok r2 =>
              simp only [h2] at hok
              cases hok
              have e1 := ru32_ok_length h1
              have e2 := rskip_ok_length h2
              omega
        | u64 =>
          have hdl := h64 rfl
          subst hdl
          simp only [readOptionValue, hdesc, Bind.bind, Except.bind, pure,
            Except.pure, Bool.false_eq_true, if_false] at hok
          cases h1 : ru64 r with
          | error e => rw [h1] at hok; exact absurd hok (by simp)
          | ok p =>
            obtain ⟨v, r1⟩ := p
            simp only [h1] at hok
            cases h2 : rskip (pad4 8) r1 with
            | error e => rw [h2] at hok; exact absurd hok (by simp)
            | ok r2 =>
              simp only [h2] at hok
              cases hok
              have e1 := ru64_ok_length h1
              have e2 := rskip_ok_length h2
              omega
        | timestamp =>
          have hdl := hts rfl
          subst hdl
          simp only [readOptionValue, hdesc, Bind.bind, Except.bind, pure,
            Except.pure, Bool.false_eq_true, if_false] at hok
          cases h1 : ru32 r with
          | error e => rw [h1] at hok; exact absurd hok (by simp)
          | ok p =>
            obtain ⟨hv, r1⟩ := p
            simp only [h1] at hok
            cases h2 : ru32 r1 with
            | error e => rw [h2] at hok; exact absurd hok (by simp)
            | ok p =>
              obtain ⟨lv, r2⟩ := p
              simp only [h2] at hok
              cases h3 : timestampOpt ints hv lv iid with
              | error e => rw [h3] at hok; exact absurd hok (by simp)
              | ok d =>
                simp only [h3] at hok
                cases h4 : rskip (pad4 8) r2 with
                | error e => rw [h4] at hok; exact absurd hok (by simp)
                | ok r3 =>
                  simp only [h4] at hok
                  cases hok
                  have e1 := ru32_ok_length h1
                  have e2 := ru32_ok_length h2
                  have e4 := rskip_ok_length h4
                  omega
  · intro nm hdesc
    simp only [readOptionValue, hdesc, Bind.bind, Except.bind, pure,
      Except.pure, eq_self_iff_true, if_true] at hok
    cases h0 : ru32 r with
    | error e => rw [h0] at hok; exact absurd hok (by simp)
    | ok p =>
      obtain ⟨pv, r0⟩ := p
      simp only [h0] at hok
      cases h1 : rbytes dl r0 with
      | error e => rw [h1] at hok; exact absurd hok (by simp)
      | ok p =>
        obtain ⟨bs, r1⟩ := p
        simp only [h1] at hok
        cases h2 : rskip (pad4 dl) r1 with
        | error e => rw [h2] at hok; exact absurd hok (by simp)
        | ok r2 =>
          simp only [h2] at hok
          cases hok
          have e0 := ru32_ok_length h0
          have e1 := rbytes_ok_length h1
          have e2 := rskip_ok_length h2
          omega

/-- C3 counterexample: a raw custom option with a PEN (code 2989), declared
`dataLength = 4`, whose value is exactly the PEN.  The decoder reads the
4-byte PEN and then — in the raw default branch — another full
`dataLength` bytes, consuming 8 bytes of the body where the claim requires
`dataLength + pad4(dataLength) = 4`. -/
theorem optionConsumption_penRaw_cex :
    readOptionValue [] none 0x0A0D0D0A 2989 4
        ⟨[0, 0, 0x7e, 0xd9, 1, 2, 3, 4], false⟩ =
      .ok (⟨2989, some "opt_custom", some 32473, false, none, none, none,
        some [1, 2, 3, 4]⟩, ⟨[], false⟩)
    ∧ 4 + pad4 4 = 4 :=
  ⟨rfl, by decide⟩

/-- Witness for the amended C3 at the repository's PEN-string test option
(code 2988, `dataLength = 7`, value the PEN then `ab` then NUL, one pad
byte). -/
theorem optionConsumption_amended_witness :
    readOptionValue [] none SECTION_HEADER 2988 7
        ⟨[0, 0, 0x7e, 0xd9, 0x61, 0x62, 0, 0], false⟩ =
      .ok (⟨2988, some "opt_custom", some 32473, false,
        some (.utf8StripTrim [0x61, 0x62, 0]), none, none, none⟩,
        ⟨[], false⟩)
    ∧ ([0, 0, 0x7e, 0xd9, 0x61, 0x62, 0, 0] : List Nat).length =
        (7 + pad4 7) + ([] : List Nat).length :=
  ⟨rfl,
    (optionConsumption_amended [] none SECTION_HEADER 2988 7
      ⟨[0, 0, 0x7e, 0xd9, 0x61, 0x62, 0, 0], false⟩
      ⟨2988, some "opt_custom", some 32473, false,
        some (.utf8StripTrim [0x61, 0x62, 0]), none, none, none⟩
      ⟨[], false⟩ rfl).2.1 "opt_custom" (some OptTy.str) true (by decide)
      (fun _ => ⟨by decide, rfl⟩) (by decide) (by decide) (by decide)⟩

end PcapNg

